import Mathlib

/-!
Verification of the grafana-structured-logger emitter (src/src/index.ts).

The embedding models the runtime behaviour of the TypeScript module:
levels are runtime strings (the TS union type is erased and the switch
statements carry a `default` arm), labels are JS objects modelled as
insertion-ordered association lists with spread/override semantics, and
server-side serialization follows `JSON.stringify` applied to the record
literal (fixed key insertion order; string escaping; `undefined` label
values dropped, `null` kept).
-/

namespace Logger

/-- A JS label value: `string | null | undefined` (type `Label`'s codomain). -/
inductive LValue where
  | str (s : String)
  | null
  | undef
deriving DecidableEq, Repr

/-- A JS object of labels: insertion-ordered key/value pairs (type `Label`). -/
def Label := List (String × LValue)
deriving DecidableEq, Repr

/-- First-match lookup of a key in a JS object, as property access. -/
def objLookup : List (String × LValue) → String → Option LValue
  | [], _ => none
  | p :: rest, k => if p.1 = k then some p.2 else objLookup rest k

/-- JS property assignment `o[k] = v`: overwrite in place if the key exists,
otherwise append (insertion order preserved). -/
def objInsert (o : List (String × LValue)) (k : String) (v : LValue) :
    List (String × LValue) :=
  if o.any (fun p => p.1 = k) then
    o.map (fun p => if p.1 = k then (k, v) else p)
  else
    o ++ [(k, v)]

/-- JS object spread `\x7b...a, ...b\x7d`: start from `a`, assign each property
of `b` in order. -/
def objSpread (a b : List (String × LValue)) : List (String × LValue) :=
  b.foldl (fun acc p => objInsert acc p.1 p.2) a

/-- An error-like value: `message` plus optional `stack` (an `Error`). -/
structure JsError where
  message : String
  stack : Option String
deriving DecidableEq, Repr

/-- The `string | Error` argument accepted by the emitters. -/
inductive MessageOrError where
  | str (s : String)
  | err (e : JsError)
deriving DecidableEq, Repr

/-- The message text: the string itself, or the error's `message` property. -/
def messageText : MessageOrError → String
  | .str s => s
  | .err e => e.message

/-- The `LogRecord` shape built by `emitServer` (optional `stack`/`labels`). -/
structure LogRecord where
  time : String
  level : String
  message : String
  stack : Option String
  labels : Option Label
deriving DecidableEq, Repr

/-- The four console sinks (`console.debug/info/warn/error`). -/
inductive Channel where
  | debug
  | info
  | warn
  | error
deriving DecidableEq, Repr

/-- The severity switch shared by `emitServer` and `emitClient`:
`debug`→debug, `warning`→warn, `error`/`critical`→error, `info` and the
`default` arm →info. -/
def channelFor (level : String) : Channel :=
  if level = "debug" then .debug
  else if level = "warning" then .warn
  else if level = "error" ∨ level = "critical" then .error
  else .info

/-- Hex digit for JSON `\uXXXX` escapes. -/
def hexDigit (n : Nat) : Char :=
  if n < 10 then Char.ofNat (48 + n) else Char.ofNat (87 + n)

/-- Four-hex-digit rendering of a code point below 0x20. -/
def hex4 (n : Nat) : String :=
  String.mk [hexDigit (n / 4096 % 16), hexDigit (n / 256 % 16),
             hexDigit (n / 16 % 16), hexDigit (n % 16)]

/-- `JSON.stringify` escaping of one character inside a string literal. -/
def escapeChar (c : Char) : String :=
  if c = '"' then "\\\""
  else if c = '\\' then "\\\\"
  else if c = (Char.ofNat 8) then "\\b"
  else if c = (Char.ofNat 9) then "\\t"
  else if c = (Char.ofNat 10) then "\\n"
  else if c = (Char.ofNat 12) then "\\f"
  else if c = (Char.ofNat 13) then "\\r"
  else if c.toNat < 32 then "\\u" ++ hex4 c.toNat
  else String.singleton c

/-- `JSON.stringify` escaping of a character list. -/
def escapeList : List Char → String
  | [] => ""
  | c :: rest => escapeChar c ++ escapeList rest

/-- `JSON.stringify` body of a string literal. -/
def jsonEscape (s : String) : String :=
  escapeList s.data

/-- `JSON.stringify` of a string value. -/
def jsonString (s : String) : String :=
  "\"" ++ jsonEscape s ++ "\""

/-- `JSON.stringify` of one label entry: `undefined` values are dropped,
`null` is kept, strings are quoted. -/
def labelEntry (p : String × LValue) : Option String :=
  match p.2 with
  | .str s => some (jsonString p.1 ++ ":" ++ jsonString s)
  | .null => some (jsonString p.1 ++ ":null")
  | .undef => none

/-- Comma-separated concatenation, as in a JSON object body. -/
def joinComma : List String → String
  | [] => ""
  | [x] => x
  | x :: y :: rest => x ++ "," ++ joinComma (y :: rest)

/-- `JSON.stringify` of a labels object. -/
def serializeLabels (l : Label) : String :=
  "\x7b" ++ joinComma (List.filterMap labelEntry l) ++ "\x7d"

/-- Contribution of the optional `stack` field to the serialized record. -/
def stackPart : Option String → String
  | some s => ",\"stack\":" ++ jsonString s
  | none => ""

/-- Contribution of the optional `labels` field to the serialized record. -/
def labelsPart : Option Label → String
  | some l => ",\"labels\":" ++ serializeLabels l
  | none => ""

/-- `JSON.stringify(record)`: keys in insertion order
`time, level, message, stack?, labels?`. -/
def serializeRecord (r : LogRecord) : String :=
  "\x7b\"time\":" ++ jsonString r.time ++
  ",\"level\":" ++ jsonString r.level ++
  ",\"message\":" ++ jsonString r.message ++
  stackPart r.stack ++ labelsPart r.labels ++ "\x7d"

/-- Spec-side view for the key-order property: the record's fields as an
ordered key/serialized-value list — `time, level, message`, then `stack`
when present, then `labels` when present. -/
def fieldsOf (r : LogRecord) : List (String × String) :=
  [("time", jsonString r.time), ("level", jsonString r.level),
   ("message", jsonString r.message)] ++
  (match r.stack with
   | some s => [("stack", jsonString s)]
   | none => []) ++
  (match r.labels with
   | some l => [("labels", serializeLabels l)]
   | none => [])

/-- Spec-side JSON object encoding of an ordered field list. -/
def joinObject (fields : List (String × String)) : String :=
  "\x7b" ++ joinComma (fields.map (fun p => "\"" ++ p.1 ++ "\":" ++ p.2)) ++ "\x7d"

/-- `defaultLabels ? \x7b ...defaultLabels, ...labels \x7d : labels` —
spreading `undefined` call-site labels spreads nothing. -/
def mergedLabelsOf (dflt : Option Label) (labels : Option Label) : Option Label :=
  match dflt with
  | some d => some (objSpread d (labels.getD []))
  | none => labels

/-- The record built by `emitServer`: `stack` present only for an error-like
input with a truthy (present, non-empty) `stack`; `labels` present only when
the merged labels object exists and has at least one key. -/
def serverRecord (dflt : Option Label) (time : String) (level : String)
    (moe : MessageOrError) (labels : Option Label) : LogRecord :=
  { time := time
    level := level
    message := messageText moe
    stack :=
      match moe with
      | .str _ => none
      | .err e =>
        match e.stack with
        | some s => if s = "" then none else some s
        | none => none
    labels :=
      match mergedLabelsOf dflt labels with
      | some l => if 0 < l.length then some l else none
      | none => none }

/-- One emission: the selected console sink and the text written to it. -/
structure Emission where
  channel : Channel
  text : String
deriving DecidableEq, Repr

/-- `emitServer`: serialize the record and write it to the severity-selected
channel. `time` stands for `new Date().toISOString()`. -/
def emitServer (dflt : Option Label) (time : String) (level : String)
    (moe : MessageOrError) (labels : Option Label) : Emission :=
  { channel := channelFor level
    text := serializeRecord (serverRecord dflt time level moe labels) }

/-- `emitClient`: write only the plain message text. -/
def emitClient (level : String) (moe : MessageOrError) : Emission :=
  { channel := channelFor level
    text := messageText moe }

/-- `emit`: dispatch on the execution context (`isClient()`). -/
def emit (isClientEnv : Bool) (dflt : Option Label) (time : String)
    (level : String) (moe : MessageOrError) (labels : Option Label) : Emission :=
  if isClientEnv then emitClient level moe
  else emitServer dflt time level moe labels

/-- The `init` configuration object: an optional `defaultLabels` mapping. -/
structure Config where
  defaultLabels : Option Label

/-- `init`: replace the process-wide default labels when the field is given
(an object, even empty, is truthy); leave them untouched otherwise. -/
def init (state : Option Label) (config : Config) : Option Label :=
  match config.defaultLabels with
  | some d => some d
  | none => state

/-! ### Object-semantics lemmas -/

theorem objLookup_mem (o : List (String × LValue)) (k : String) (v : LValue)
    (h : objLookup o k = some v) : k ∈ o.map Prod.fst := by
  induction o with
  | nil => simp [objLookup] at h
  | cons p rest ih =>
    by_cases hp : p.1 = k
    · simp [hp]
    · rw [objLookup, if_neg hp] at h
      simp [ih h]

theorem objLookup_eq_none (o : List (String × LValue)) (k : String)
    (h : o.any (fun p => p.1 = k) = false) : objLookup o k = none := by
  induction o with
  | nil => rfl
  | cons p rest ih =>
    rw [List.any_cons, Bool.or_eq_false_iff] at h
    have hp : ¬ p.1 = k := by simpa using h.1
    rw [objLookup, if_neg hp]
    exact ih h.2

theorem objLookup_map_set_self (o : List (String × LValue)) (k : String) (v : LValue)
    (h : o.any (fun p => p.1 = k) = true) :
    objLookup (o.map (fun p => if p.1 = k then (k, v) else p)) k = some v := by
  induction o with
  | nil => simp at h
  | cons p rest ih =>
    by_cases hp : p.1 = k
    · simp [objLookup, hp]
    · rw [List.any_cons, Bool.or_eq_true] at h
      have hr : rest.any (fun p => p.1 = k) = true := by
        rcases h with h | h
        · exact absurd (by simpa using h) hp
        · exact h
      simp only [List.map_cons, if_neg hp, objLookup, if_neg hp]
      exact ih hr

theorem objLookup_map_set_other (o : List (String × LValue)) (k : String) (v : LValue)
    (k' : String) (hk : k' ≠ k) :
    objLookup (o.map (fun p => if p.1 = k then (k, v) else p)) k' = objLookup o k' := by
  induction o with
  | nil => rfl
  | cons p rest ih =>
    by_cases hp : p.1 = k
    · have hkk : ¬ (k = k') := fun h => hk h.symm
      simp only [List.map_cons, if_pos hp, objLookup, if_neg hkk,
        if_neg (hp ▸ hkk : ¬ p.1 = k')]
      exact ih
    · by_cases hq : p.1 = k'
      · simp [objLookup, hp, hq, hk]
      · simp only [List.map_cons, if_neg hp, objLookup, if_neg hq]
        exact ih

theorem objLookup_append (a b : List (String × LValue)) (k : String) :
    objLookup (a ++ b) k =
      match objLookup a k with
      | some v => some v
      | none => objLookup b k := by
  induction a with
  | nil => rfl
  | cons p rest ih =>
    by_cases hp : p.1 = k <;> simp [objLookup, hp, ih]

theorem objLookup_objInsert (o : List (String × LValue)) (k : String) (v : LValue)
    (k' : String) :
    objLookup (objInsert o k v) k' = if k' = k then some v else objLookup o k' := by
  unfold objInsert
  by_cases ha : o.any (fun p => p.1 = k) = true
  · rw [if_pos ha]
    by_cases hk : k' = k
    · rw [if_pos hk, hk]
      exact objLookup_map_set_self o k v ha
    · rw [if_neg hk]
      exact objLookup_map_set_other o k v k' hk
  · rw [if_neg ha, objLookup_append]
    have hnone : objLookup o k = none :=
      objLookup_eq_none o k (Bool.eq_false_iff.mpr ha)
    by_cases hk : k' = k
    · subst hk
      simp [hnone, objLookup]
    · have hkk : ¬ (k = k') := fun h => hk h.symm
      cases h : objLookup o k' with
      | some v' => simp [h, hk]
      | none => simp [h, objLookup, hkk, hk]

theorem objLookup_objSpread (a b : List (String × LValue))
    (hb : (b.map Prod.fst).Nodup) (k : String) :
    objLookup (objSpread a b) k =
      match objLookup b k with
      | some v => some v
      | none => objLookup a k := by
  induction b generalizing a with
  | nil => rfl
  | cons p rest ih =>
    have hnm : p.1 ∉ rest.map Prod.fst := (List.nodup_cons.mp (by simpa using hb)).1
    have hnd : (rest.map Prod.fst).Nodup := (List.nodup_cons.mp (by simpa using hb)).2
    show objLookup (objSpread (objInsert a p.1 p.2) rest) k = _
    rw [ih _ hnd]
    by_cases hk : p.1 = k
    · subst hk
      have hr : objLookup rest p.1 = none := by
        cases h : objLookup rest p.1 with
        | none => rfl
        | some v => exact absurd (objLookup_mem rest p.1 v h) hnm
      simp [hr, objLookup, objLookup_objInsert]
    · have hkk : ¬ (k = p.1) := fun h => hk h.symm
      rw [objLookup_objInsert]
      cases h : objLookup rest k with
      | some v => simp [h, objLookup, hk]
      | none => simp [h, objLookup, hk, hkk]

/-! ### Serialized output never contains a raw newline (single-line output) -/

theorem hexDigit_ne_newline (n : Nat) (h : n < 16) : hexDigit n ≠ '\n' := by
  interval_cases n <;> decide

theorem escapeChar_no_newline (c : Char) : '\n' ∉ (escapeChar c).data := by
  unfold escapeChar
  split_ifs with h1 h2 h3 h4 h5 h6 h7 h8
  · decide
  · decide
  · decide
  · decide
  · decide
  · decide
  · decide
  · rw [String.data_append]
    intro hmem
    rcases List.mem_append.mp hmem with h | h
    · revert h; decide
    · unfold hex4 at h
      rw [show (String.mk [hexDigit (c.toNat / 4096 % 16), hexDigit (c.toNat / 256 % 16),
            hexDigit (c.toNat / 16 % 16), hexDigit (c.toNat % 16)]).data =
          [hexDigit (c.toNat / 4096 % 16), hexDigit (c.toNat / 256 % 16),
           hexDigit (c.toNat / 16 % 16), hexDigit (c.toNat % 16)] from rfl] at h
      simp only [List.mem_cons, List.not_mem_nil, or_false] at h
      rcases h with h | h | h | h
      · exact hexDigit_ne_newline _ (Nat.mod_lt _ (by decide)) h.symm
      · exact hexDigit_ne_newline _ (Nat.mod_lt _ (by decide)) h.symm
      · exact hexDigit_ne_newline _ (Nat.mod_lt _ (by decide)) h.symm
      · exact hexDigit_ne_newline _ (Nat.mod_lt _ (by decide)) h.symm
  · intro hmem
    have hc : '\n' = c := by simpa [String.singleton] using hmem
    exact h8 (hc ▸ (by decide : ('\n').toNat < 32))

theorem escapeList_no_newline (l : List Char) : '\n' ∉ (escapeList l).data := by
  induction l with
  | nil => simp [escapeList]
  | cons c rest ih =>
    rw [escapeList, String.data_append]
    intro hmem
    rcases List.mem_append.mp hmem with h | h
    · exact escapeChar_no_newline c h
    · exact ih h

theorem jsonString_no_newline (s : String) : '\n' ∉ (jsonString s).data := by
  rw [jsonString, jsonEscape, String.data_append, String.data_append]
  intro hmem
  rcases List.mem_append.mp hmem with h | h
  · rcases List.mem_append.mp h with h | h
    · revert h; decide
    · exact escapeList_no_newline s.data h
  · revert h; decide

theorem joinComma_no_newline (xs : List String)
    (h : ∀ x ∈ xs, '\n' ∉ x.data) : '\n' ∉ (joinComma xs).data := by
  induction xs with
  | nil => simp [joinComma]
  | cons x rest ih =>
    cases rest with
    | nil => simpa [joinComma] using h x (by simp)
    | cons y rest2 =>
      rw [joinComma, String.data_append, String.data_append]
      intro hmem
      rcases List.mem_append.mp hmem with hm | hm
      · rcases List.mem_append.mp hm with hm | hm
        · exact h x (by simp) hm
        · revert hm; decide
      · exact ih (fun z hz => h z (List.mem_cons_of_mem x hz)) hm

theorem labelEntry_no_newline (p : String × LValue) (s : String)
    (h : labelEntry p = some s) : '\n' ∉ s.data := by
  unfold labelEntry at h
  cases hv : p.2 with
  | str v =>
    rw [hv] at h
    injection h with h
    subst h
    rw [String.data_append, String.data_append]
    intro hmem
    rcases List.mem_append.mp hmem with hm | hm
    · rcases List.mem_append.mp hm with hm | hm
      · exact jsonString_no_newline p.1 hm
      · revert hm; decide
    · exact jsonString_no_newline v hm
  | null =>
    rw [hv] at h
    injection h with h
    subst h
    rw [String.data_append]
    intro hmem
    rcases List.mem_append.mp hmem with hm | hm
    · exact jsonString_no_newline p.1 hm
    · revert hm; decide
  | undef =>
    rw [hv] at h
    exact absurd h (by simp)

theorem serializeLabels_no_newline (l : Label) : '\n' ∉ (serializeLabels l).data := by
  rw [serializeLabels, String.data_append, String.data_append]
  intro hmem
  rcases List.mem_append.mp hmem with hm | hm
  · rcases List.mem_append.mp hm with hm | hm
    · revert hm; decide
    · refine joinComma_no_newline _ ?_ hm
      intro x hx
      rcases List.mem_filterMap.mp hx with ⟨p, _, hp⟩
      exact labelEntry_no_newline p x hp
  · revert hm; decide

theorem stackPart_no_newline (o : Option String) : '\n' ∉ (stackPart o).data := by
  cases o with
  | none => simp [stackPart]
  | some s =>
    rw [stackPart, String.data_append]
    intro hmem
    rcases List.mem_append.mp hmem with hm | hm
    · revert hm; decide
    · exact jsonString_no_newline s hm

theorem labelsPart_no_newline (o : Option Label) : '\n' ∉ (labelsPart o).data := by
  cases o with
  | none => simp [labelsPart]
  | some l =>
    rw [labelsPart, String.data_append]
    intro hmem
    rcases List.mem_append.mp hmem with hm | hm
    · revert hm; decide
    · exact serializeLabels_no_newline l hm

theorem serializeRecord_no_newline (r : LogRecord) :
    '\n' ∉ (serializeRecord r).data := by
  rw [serializeRecord]
  intro hmem
  simp only [String.data_append, List.mem_append] at hmem
  rcases hmem with (((((((hm | hm) | hm) | hm) | hm) | hm) | hm) | hm) | hm
  · revert hm; decide
  · exact jsonString_no_newline r.time hm
  · revert hm; decide
  · exact jsonString_no_newline r.level hm
  · revert hm; decide
  · exact jsonString_no_newline r.message hm
  · exact stackPart_no_newline r.stack hm
  · exact labelsPart_no_newline r.labels hm
  · revert hm; decide

/-! ### Serialization agrees with the ordered-field-list encoding -/

theorem serializeRecord_eq_joinObject (r : LogRecord) :
    serializeRecord r = joinObject (fieldsOf r) := by
  rcases r with ⟨t, lv, m, st, lb⟩
  cases st <;> cases lb <;>
    (apply String.ext
     simp [serializeRecord, fieldsOf, joinObject, joinComma, stackPart, labelsPart,
       String.data_append])

/-! ### Claims -/

/-- C1: for every severity level L and message M, a server-context call with no
call-site labels and no configured default labels emits exactly the single-line
JSON encoding of the record `\x7btime, level: L, message: M\x7d`, with no
`stack` key and no `labels` key. -/
theorem c1_server_plain_message_exact (level M time : String) :
    emitServer none time level (.str M) none =
      { channel := channelFor level
        text := "\x7b\"time\":" ++ jsonString time ++ ",\"level\":" ++
          jsonString level ++ ",\"message\":" ++ jsonString M ++ "\x7d" } ∧
    (serverRecord none time level (.str M) none).stack = none ∧
    (serverRecord none time level (.str M) none).labels = none ∧
    '\n' ∉ (emitServer none time level (.str M) none).text.data := by
  refine ⟨?_, rfl, rfl, serializeRecord_no_newline _⟩
  simp only [emitServer, Emission.mk.injEq, true_and]
  apply String.ext
  simp [serverRecord, serializeRecord, stackPart, labelsPart, messageText,
    mergedLabelsOf, String.data_append]

/-- C2: merged labels in a server-context emission apply the defaults D first
and let call-site labels C override on key collision; in particular, defaults
`\x7ba:"1", b:"2"\x7d` with call-site labels `\x7bb:"3", c:"4"\x7d` merge to
`\x7ba:"1", b:"3", c:"4"\x7d`. -/
theorem c2_default_labels_merge (D C : Label)
    (hC : (List.map Prod.fst C).Nodup) :
    mergedLabelsOf (some D) (some C) = some (objSpread D C) ∧
    (∀ k : String, objLookup (objSpread D C) k =
      match objLookup C k with
      | some v => some v
      | none => objLookup D k) ∧
    objSpread [("a", .str "1"), ("b", .str "2")] [("b", .str "3"), ("c", .str "4")] =
      [("a", .str "1"), ("b", .str "3"), ("c", .str "4")] :=
  ⟨rfl, fun k => objLookup_objSpread D C hC k, by decide⟩

/-- Witness for C2 at the spec's concrete merge example. -/
theorem c2_default_labels_merge_witness :
    (List.map Prod.fst
      ([("b", .str "3"), ("c", .str "4")] : List (String × LValue))).Nodup ∧
    objSpread [("a", .str "1"), ("b", .str "2")] [("b", .str "3"), ("c", .str "4")] =
      [("a", .str "1"), ("b", .str "3"), ("c", .str "4")] :=
  ⟨by decide, (c2_default_labels_merge [("a", .str "1"), ("b", .str "2")]
    [("b", .str "3"), ("c", .str "4")] (by decide)).2.2⟩

/-- C3: in either context the output channel is selected solely by the severity
level: `error` and `critical` write to the error channel, `debug` to debug,
`warning` to warn, `info` to info, and any unrecognized level falls back to
info. -/
theorem c3_severity_routing (isClientEnv : Bool) (dflt : Option Label)
    (time level : String) (moe : MessageOrError) (labels : Option Label) :
    (emit isClientEnv dflt time level moe labels).channel = channelFor level ∧
    channelFor "error" = Channel.error ∧
    channelFor "critical" = Channel.error ∧
    channelFor "debug" = Channel.debug ∧
    channelFor "warning" = Channel.warn ∧
    channelFor "info" = Channel.info ∧
    (level ≠ "debug" → level ≠ "warning" → level ≠ "error" → level ≠ "critical" →
      channelFor level = Channel.info) := by
  refine ⟨?_, by decide, by decide, by decide, by decide, by decide, ?_⟩
  · cases isClientEnv <;> rfl
  · intro h1 h2 h3 h4
    simp [channelFor, h1, h2, h3, h4]

/-- Witness for C3 at an unrecognized level. -/
theorem c3_severity_routing_witness :
    (emit false none "t" "trace" (.str "m") none).channel = channelFor "trace" ∧
    channelFor "trace" = Channel.info :=
  ⟨(c3_severity_routing false none "t" "trace" (.str "m") none).1,
   (c3_severity_routing false none "t" "trace" (.str "m") none).2.2.2.2.2.2
     (by decide) (by decide) (by decide) (by decide)⟩

/-- C4: for every level and every input, a client-context call writes exactly
the plain message text (the `message` property for an error-like input), with
no timestamp, no JSON structure and no stack; supplied labels and configured
defaults are silently dropped. -/
theorem c4_client_plain_text (dflt : Option Label) (time level : String)
    (moe : MessageOrError) (labels : Option Label) :
    emit true dflt time level moe labels =
      { channel := channelFor level, text := messageText moe } ∧
    (∀ s : String, messageText (.str s) = s) ∧
    (∀ e : JsError, messageText (.err e) = e.message) ∧
    (∀ (dflt2 labels2 : Option Label) (time2 : String),
      emit true dflt time level moe labels = emit true dflt2 time2 level moe labels2) :=
  ⟨rfl, fun _ => rfl, fun _ => rfl, fun _ _ _ => rfl⟩

/-- C5: a server-context emission omits the `stack` key whenever the input is
not error-like or carries no (or an empty) stack — regardless of labels — and
independently omits the `labels` key whenever the merged label mapping is
absent or empty — regardless of the input's stack; in particular, after `init`
with empty defaults and no call-site labels the record has no `labels` key for
every input, and when both are absent the output is the bare three-field JSON
line. -/
theorem c5_stack_and_labels_omission (dflt : Option Label) (time level : String)
    (moe : MessageOrError) (labels : Option Label) :
    ((match moe with
      | .str _ => True
      | .err e => e.stack = none ∨ e.stack = some "") →
      (serverRecord dflt time level moe labels).stack = none) ∧
    ((mergedLabelsOf dflt labels = none ∨
        mergedLabelsOf dflt labels = some ([] : Label)) →
      (serverRecord dflt time level moe labels).labels = none) ∧
    (serverRecord (init none ⟨some []⟩) time level moe none).labels = none ∧
    ((match moe with
      | .str _ => True
      | .err e => e.stack = none ∨ e.stack = some "") →
      (mergedLabelsOf dflt labels = none ∨
        mergedLabelsOf dflt labels = some ([] : Label)) →
      (emitServer dflt time level moe labels).text =
        "\x7b\"time\":" ++ jsonString time ++ ",\"level\":" ++ jsonString level ++
          ",\"message\":" ++ jsonString (messageText moe) ++ "\x7d") := by
  have hst : (match moe with
      | .str _ => True
      | .err e => e.stack = none ∨ e.stack = some "") →
      (serverRecord dflt time level moe labels).stack = none := by
    intro hstack
    cases moe with
    | str s => rfl
    | err e => rcases hstack with h | h <;> simp [serverRecord, h]
  have hlb : (mergedLabelsOf dflt labels = none ∨
      mergedLabelsOf dflt labels = some ([] : Label)) →
      (serverRecord dflt time level moe labels).labels = none := by
    intro hlabels
    rcases hlabels with h | h <;> simp [serverRecord, h]
  refine ⟨hst, hlb, rfl, ?_⟩
  intro h1 h2
  show serializeRecord (serverRecord dflt time level moe labels) = _
  rw [serializeRecord, hst h1, hlb h2]
  apply String.ext
  simp [stackPart, labelsPart, serverRecord, messageText, String.data_append]

/-- Witness for C5: the stack key is omitted for a string input even with
non-empty call-site labels; the labels key is omitted after `init` with empty
defaults even for an error carrying a real stack; and with both absent the
output is the bare three-field line. -/
theorem c5_stack_and_labels_omission_witness :
    (serverRecord none "T" "info" (.str "m") (some [("a", .str "1")])).stack = none ∧
    (serverRecord (init none ⟨some []⟩) "T" "error"
      (.err ⟨"Boom", some "trace"⟩) none).labels = none ∧
    (emitServer (some []) "T" "info" (.str "m") none).text =
      "\x7b\"time\":" ++ jsonString "T" ++ ",\"level\":" ++ jsonString "info" ++
        ",\"message\":" ++ jsonString "m" ++ "\x7d" :=
  ⟨(c5_stack_and_labels_omission none "T" "info" (.str "m")
      (some [("a", .str "1")])).1 trivial,
   (c5_stack_and_labels_omission none "T" "error"
      (.err ⟨"Boom", some "trace"⟩) none).2.2.1,
   (c5_stack_and_labels_omission (some []) "T" "info" (.str "m") none).2.2.2
     trivial (Or.inr rfl)⟩

/-- C6: for every error-like input carrying a non-empty stack, a server-context
`error` or `critical` call emits a record whose `message` equals the input's
message and whose `stack` equals the input's stack text verbatim (and the
emission goes to the error channel). -/
theorem c6_error_stack_verbatim (dflt : Option Label) (time level : String)
    (e : JsError) (s : String) (labels : Option Label)
    (hs : e.stack = some s) (hne : s ≠ "")
    (hlvl : level = "error" ∨ level = "critical") :
    (serverRecord dflt time level (.err e) labels).message = e.message ∧
    (serverRecord dflt time level (.err e) labels).stack = some s ∧
    (emitServer dflt time level (.err e) labels).channel = Channel.error := by
  refine ⟨rfl, ?_, ?_⟩
  · simp [serverRecord, hs, hne]
  · rcases hlvl with h | h <;> simp [emitServer, channelFor, h]

/-- Witness for C6 at a concrete error with a stack. -/
theorem c6_error_stack_verbatim_witness :
    ((⟨"Boom", some "trace"⟩ : JsError).stack = some "trace" ∧
      ("trace" : String) ≠ "" ∧
      (("error" : String) = "error" ∨ ("error" : String) = "critical")) ∧
    (serverRecord none "T" "error" (.err ⟨"Boom", some "trace"⟩) none).message = "Boom" ∧
    (serverRecord none "T" "error" (.err ⟨"Boom", some "trace"⟩) none).stack = some "trace" :=
  ⟨⟨rfl, by decide, Or.inl rfl⟩,
   (c6_error_stack_verbatim none "T" "error" ⟨"Boom", some "trace"⟩ "trace" none
     rfl (by decide) (Or.inl rfl)).1,
   (c6_error_stack_verbatim none "T" "error" ⟨"Boom", some "trace"⟩ "trace" none
     rfl (by decide) (Or.inl rfl)).2.1⟩

/-- C7: `init` replaces the process-wide default labels with the given mapping
whenever the field is provided (an explicit empty mapping is a valid clear) and
leaves the prior state unchanged when the field is absent. -/
theorem c7_init_replaces_or_keeps (prev : Option Label) (d : Label) :
    init prev ⟨some d⟩ = some d ∧
    init prev ⟨some ([] : Label)⟩ = some ([] : Label) ∧
    init prev ⟨none⟩ = prev :=
  ⟨rfl, rfl, rfl⟩

/-- C8: every server-context emission is the JSON object with fields in the
stable key order time, level, message, then stack when present, then labels
when present, on a single line (no raw newline in the output). -/
theorem c8_stable_key_order (dflt : Option Label) (time level : String)
    (moe : MessageOrError) (labels : Option Label) :
    (emitServer dflt time level moe labels).text =
      joinObject (fieldsOf (serverRecord dflt time level moe labels)) ∧
    '\n' ∉ (emitServer dflt time level moe labels).text.data :=
  ⟨serializeRecord_eq_joinObject _, serializeRecord_no_newline _⟩

/-- C9: client-context output is identical under any two default-labels states:
configured defaults have no effect on client emissions. -/
theorem c9_client_ignores_defaults (d1 d2 : Option Label) (time level : String)
    (moe : MessageOrError) (labels : Option Label) :
    emit true d1 time level moe labels = emit true d2 time level moe labels :=
  rfl

/-- C10: an error-like input whose stack is present but empty has the `stack`
key omitted from the server-context record (a falsy stack is treated as
absent). -/
theorem c10_empty_stack_omitted (dflt : Option Label) (time level : String)
    (e : JsError) (labels : Option Label) (h : e.stack = some "") :
    (serverRecord dflt time level (.err e) labels).stack = none := by
  simp [serverRecord, h]

/-- Witness for C10 at a concrete error with an empty stack. -/
theorem c10_empty_stack_omitted_witness :
    (⟨"Boom", some ""⟩ : JsError).stack = some "" ∧
    (serverRecord none "T" "error" (.err ⟨"Boom", some ""⟩) none).stack = none :=
  ⟨rfl, c10_empty_stack_omitted none "T" "error" ⟨"Boom", some ""⟩ none rfl⟩

end Logger
